import Mathlib

/-!
Verification development for the 360TableLWC repository.

The definitions below are a shallow embedding of the JavaScript source in
`data360Configurator.js` (query compilation, merge-token scanning, the
resolution state handling and the session/event handlers) and the row-key
derivation of `data360Table.js`.  JavaScript strings are modelled as Lean
`String`, JavaScript runtime values appearing in the fetched value map as
the inductive `JsVal`, objects used as maps as association lists, and the
asynchronous Apex calls as explicit pending-request lists whose completion
is a separate step, so that interleavings can be replayed.
-/

namespace Data360

/-- Runtime value of a context-record field, as the JavaScript code
distinguishes them: `null`/`undefined`, number, boolean, or string
(any other value falls on the string branch via `String(value)`). -/
inductive JsVal where
  | vnull : JsVal
  | vnum : Int → JsVal
  | vbool : Bool → JsVal
  | vstr : String → JsVal
deriving Repr, DecidableEq

/-- Lookup in an association list modelling a JavaScript object used as a
map (first binding wins; the code only ever stores maps with unique keys). -/
def lookupVal (vals : List (String × JsVal)) (k : String) : Option JsVal :=
  (vals.find? (fun p => p.1 == k)).map (fun p => p.2)

/-- One field descriptor of the configurator: the shape
`{ fieldName, label, visible, sortable }` built by `handleLoadFields`. -/
structure Field where
  fieldName : String
  label : String
  visible : Bool
  sortable : Bool
deriving Repr, DecidableEq

/-- One field entry of a saved configuration (`parsed.fields`); `sortable`
may be absent in older saved configs, hence the `Option`. -/
structure SavedField where
  fieldName : String
  label : String
  visible : Bool
  sortable : Option Bool
deriving Repr, DecidableEq

/-- One toast event dispatched by `_showToast`. -/
structure Toast where
  title : String
  message : String
  variant : String
deriving Repr, DecidableEq

/-- Parameters of one in-flight `getRecordFieldValues` call, captured at
the moment `_fetchContextFieldValues` issues it. -/
structure FetchReq where
  objectApiName : String
  recordId : String
  fieldNames : List String
deriving Repr, DecidableEq

/-- One result column returned by `executeQuery`. -/
structure Column where
  fieldName : String
  label : String
deriving Repr, DecidableEq

/-- One result row: a JavaScript object, modelled as an association list
where a later binding for the same key overrides an earlier one (object
spread semantics), so lookups read the last binding. -/
abbrev Row := List (String × JsVal)

/- ### String utilities mirroring the JavaScript operations used -/

/-- Array.prototype.join: the empty array joins to the empty string, and
`sep` is placed between consecutive elements. -/
def jsJoin (sep : String) : List String → String
  | [] => ""
  | [x] => x
  | x :: y :: xs => x ++ sep ++ jsJoin sep (y :: xs)

/-- Character-list core of `String.prototype.split` on a non-empty
separator: leftmost, non-overlapping matches, scanning left to right.
The fuel argument bounds recursion; fuel equal to the list length is
always enough because every step consumes at least one character. -/
def splitFuel (pat : List Char) : Nat → List Char → List (List Char)
  | 0, l => [l]
  | _ + 1, [] => [[]]
  | fuel + 1, c :: cs =>
    if pat ≠ [] ∧ pat.isPrefixOf (c :: cs) then
      [] :: splitFuel pat fuel (List.drop (pat.length - 1) cs)
    else
      match splitFuel pat fuel cs with
      | [] => [[c]]
      | h :: t => (c :: h) :: t

/-- JavaScript `s.split(sep)` (non-empty `sep`). -/
def jsSplit (s sep : String) : List String :=
  (splitFuel sep.data s.data.length s.data).map String.mk

/-- JavaScript `s.split(pat).join(repl)`, the idiom the source uses for
replace-all. -/
def jsReplaceAll (s pat repl : String) : String :=
  jsJoin repl (jsSplit s pat)

/-- Replace every leftmost, non-overlapping occurrence of `pat` by `repl`,
scanning left to right: the direct formulation of "substitute every
occurrence of the placeholder text". -/
def replaceFuel (pat repl : List Char) : Nat → List Char → List Char
  | 0, l => l
  | _ + 1, [] => []
  | fuel + 1, c :: cs =>
    if pat ≠ [] ∧ pat.isPrefixOf (c :: cs) then
      repl ++ replaceFuel pat repl fuel (List.drop (pat.length - 1) cs)
    else
      c :: replaceFuel pat repl fuel cs

/-- String-level replace-all. -/
def replaceAll (s pat repl : String) : String :=
  String.mk (replaceFuel pat.data repl.data s.data.length s.data)

/-- Whether `pat` occurs anywhere in `l` (substring occurrence). -/
def containsPat (pat : List Char) : List Char → Bool
  | [] => pat.isEmpty
  | c :: cs => pat.isPrefixOf (c :: cs) || containsPat pat cs

/-- Whether `pat` occurs anywhere in `s`. -/
def containsSubstr (s pat : String) : Bool :=
  containsPat pat.data s.data

/-- JavaScript `String.prototype.trim`: strip leading and trailing
whitespace. -/
def jsTrim (s : String) : String :=
  String.mk (((s.data.dropWhile Char.isWhitespace).reverse.dropWhile Char.isWhitespace).reverse)

/-- A character matched by the regex class `\w`, i.e. `[A-Za-z0-9_]`. -/
def isWordChar (c : Char) : Bool :=
  c.isAlpha || c.isDigit || c == '_'

/-- Scanner core for the regex `/\$record\.(\w+)/g`: find each match of
the literal text `$record.` followed by at least one word character, emit
the captured word, and continue after the match; on a failed match the
scan advances one character, exactly as the global regex does. -/
def scanTokensFuel (pat : List Char) : Nat → List Char → List String
  | 0, _ => []
  | _ + 1, [] => []
  | fuel + 1, c :: cs =>
    if pat.isPrefixOf (c :: cs) then
      let rest := List.drop (pat.length - 1) cs
      let name := rest.takeWhile isWordChar
      if name.isEmpty then
        scanTokensFuel pat fuel cs
      else
        String.mk name :: scanTokensFuel pat fuel (rest.dropWhile isWordChar)
    else
      scanTokensFuel pat fuel cs

/-- Keep the first occurrence of each element, dropping later duplicates:
the semantics of spreading a `Set` built from an array. -/
def dedupFirst : List String → List String → List String
  | [], _ => []
  | x :: xs, seen =>
    if seen.contains x then dedupFirst xs seen
    else x :: dedupFirst xs (x :: seen)

/-- Token extraction of `_parseMergeTokens`: all distinct `\w+` names
following the literal `$record.` in the query, in first-appearance order. -/
def scanTokens (s : String) : List String :=
  dedupFirst (scanTokensFuel ("$record.".data) s.data.length s.data) []

/- ### Query compilation (`previewQueryString` getter) -/

/-- JavaScript `this.rowLimit || 100`: the row limit with `0` and
non-numeric (absent / empty / NaN) values falling back to 100.  The row
limit is modelled as `Option Nat`, `none` standing for an invalid value. -/
def limitOrDefault : Option Nat → Nat
  | none => 100
  | some 0 => 100
  | some (n + 1) => n + 1

/-- The `previewQueryString` getter: compile object name, field list,
filter clause and row limit into the query string.  Field order is the
field-list order; the filter clause is spliced verbatim. -/
def previewQueryString (fields : List Field) (selectedObject whereClause : String)
    (rowLimit : Option Nat) : String :=
  let visibleFields := fields.filter (fun f => f.visible)
  if selectedObject = "" ∨ visibleFields = [] then ""
  else
    "SELECT " ++ jsJoin ", " (visibleFields.map Field.fieldName) ++ " FROM " ++ selectedObject
      ++ " " ++ whereClause ++ " LIMIT " ++ toString (limitOrDefault rowLimit)

/- ### Configurator component state -/

/-- The mutable fields of the `Data360Configurator` component that the
engine reads or writes, with their class-initializer defaults.  The
`pendingFetches` list models in-flight `getRecordFieldValues` calls (the
code keeps no such list; a pending entry is simply an awaited promise
whose resumption is modelled by the completion steps below), and `toasts`
records every dispatched `ShowToastEvent`. -/
structure ConfigState where
  configName : String := ""
  configDescription : String := ""
  selectedConfigId : String := ""
  selectedObject : String := ""
  objectApiNameInput : String := ""
  whereClause : String := ""
  rowLimit : Option Nat := some 100
  fields : List Field := []
  fieldVisibilityFilter : String := "all"
  defaultSortField : String := ""
  defaultSortDirection : String := "asc"
  showRecordCount : Bool := false
  showSearch : Bool := false
  showRefresh : Bool := false
  contextObjectApiName : String := ""
  contextObjectLabel : String := ""
  contextObjectSearchTerm : String := ""
  contextRecordId : String := ""
  contextObjectResults : List (String × String) := []
  showContextObjectDropdown : Bool := false
  contextFieldValues : List (String × JsVal) := []
  mergeTokens : List String := []
  pendingFetches : List FetchReq := []
  toasts : List Toast := []
deriving Repr

/-- The component's initial state (all class-initializer defaults). -/
def initialState : ConfigState := {}

/-- The `previewQueryString` getter read off the component state. -/
def ConfigState.preview (s : ConfigState) : String :=
  previewQueryString s.fields s.selectedObject s.whereClause s.rowLimit

/-- One iteration of the substitution loop in
`resolvedPreviewQueryString`: replace the token text throughout the
accumulated string, rendering the fetched value exactly as the source
does (`split(token).join(…)` with `NULL`, `String(value)` for numbers
and booleans, and unescaped single-quoting otherwise). -/
def substSourceStep (vals : List (String × JsVal)) (resolved fieldName : String) : String :=
  let token := "$record." ++ fieldName
  match lookupVal vals fieldName with
  | none => jsReplaceAll resolved token "NULL"
  | some JsVal.vnull => jsReplaceAll resolved token "NULL"
  | some (JsVal.vnum n) => jsReplaceAll resolved token (toString n)
  | some (JsVal.vbool b) => jsReplaceAll resolved token (toString b)
  | some (JsVal.vstr v) => jsReplaceAll resolved token ("\x27" ++ v ++ "\x27")

/-- The `resolvedPreviewQueryString` getter: gate on the compiled query,
the stored token list, the selected context record and the fetched value
map, then run the substitution loop over the tokens. -/
def resolvedPreviewQueryString (s : ConfigState) : String :=
  let raw := s.preview
  if raw = "" then ""
  else if s.mergeTokens = [] then raw
  else if s.contextRecordId = "" then ""
  else if s.contextFieldValues = [] then ""
  else s.mergeTokens.foldl (substSourceStep s.contextFieldValues) raw

/-- The `mergeTokenStatusText` getter. -/
def mergeTokenStatusText (s : ConfigState) : String :=
  if s.mergeTokens = [] then ""
  else if s.contextRecordId = "" then
    toString s.mergeTokens.length ++ " $record token(s) detected — select a context record to resolve"
  else if s.contextFieldValues ≠ [] then
    toString s.mergeTokens.length ++ " token(s) resolved"
  else
    "Fetching " ++ toString s.mergeTokens.length ++ " field value(s)..."

/-- The resolution states named by the specification.  The code never
reifies this type; it is derived here, as the specification prescribes,
purely from the stored token list, the context record id and the fetched
value map — which is also why no reachable derivation yields `Error`. -/
inductive ResolutionState where
  | NoTokens : ResolutionState
  | AwaitingRecord : ResolutionState
  | AwaitingValues : ResolutionState
  | Resolved : ResolutionState
  | Error : ResolutionState
deriving Repr, DecidableEq

/-- Derived resolution state of a component state, following the
specification's condition table. -/
def resolutionState (s : ConfigState) : ResolutionState :=
  if s.mergeTokens = [] then ResolutionState.NoTokens
  else if s.contextRecordId = "" then ResolutionState.AwaitingRecord
  else if s.contextFieldValues = [] then ResolutionState.AwaitingValues
  else ResolutionState.Resolved

/- ### Specification-side substitution (for the refinement theorem) -/

/-- Value rendering as the specification words it: the literal `NULL` for
a null or absent value, the bare textual form for numbers and booleans,
and otherwise the value wrapped in single quotes with no escaping. -/
def specRender : Option JsVal → String
  | none => "NULL"
  | some JsVal.vnull => "NULL"
  | some (JsVal.vnum n) => toString n
  | some (JsVal.vbool b) => if b then "true" else "false"
  | some (JsVal.vstr v) => "\x27" ++ v ++ "\x27"

/-- Specification-side substitution: for each token field, replace every
occurrence of its placeholder text in the query by the rendered value. -/
def specSubstitute (tokens : List String) (vals : List (String × JsVal)) (q : String) : String :=
  tokens.foldl (fun acc fn => replaceAll acc ("$record." ++ fn) (specRender (lookupVal vals fn))) q

/- ### Reconciliation of a saved field list with discovered fields -/

/-- Lookup in the `Map` the code builds from the field list: a JavaScript
`Map` built from entries keeps the last entry for a duplicated key. -/
def mapGet (loaded : List Field) (n : String) : Option Field :=
  loaded.reverse.find? (fun f => f.fieldName == n)

/-- The entry the reconciliation loop pushes for a saved field found among
the loaded fields: the loaded descriptor with the saved `visible`,
`label`, and `sortable` (where `sortable !== false` reads an absent
`sortable` as `true`). -/
def reconEntry (loaded : List Field) (cf : SavedField) : Option Field :=
  (mapGet loaded cf.fieldName).map (fun f =>
    { f with visible := cf.visible, label := cf.label, sortable := cf.sortable != some false })

/-- The field-list reconciliation performed by `handleConfigSelect`:
rebuild in config-saved order (skipping saved fields that no longer
exist), then append the loaded fields that were not in the saved config,
hidden and sortable. -/
def reconcile (saved : List SavedField) (loaded : List Field) : List Field :=
  let orderedFields := saved.filterMap (reconEntry loaded)
  let seen := saved.filterMap (fun cf => (mapGet loaded cf.fieldName).map (fun _ => cf.fieldName))
  let appended := (loaded.filter (fun f => !(seen.contains f.fieldName))).map
    (fun f => { f with visible := false, sortable := true })
  orderedFields ++ appended

/-- Reconciliation as the claim words it: the fields present in both
lists, in saved order, carrying the saved `visible`/`label` and the saved
`sortable` defaulted to `true` when missing; then all remaining
discovered fields in discovery order, hidden and sortable. -/
def reconcileSpec (saved : List SavedField) (loaded : List Field) : List Field :=
  let inBoth := saved.filter (fun cf => loaded.any (fun f => f.fieldName == cf.fieldName))
  let part1 := inBoth.map (fun cf =>
    { fieldName := cf.fieldName, label := cf.label, visible := cf.visible,
      sortable := cf.sortable.getD true })
  let savedNames := saved.map SavedField.fieldName
  let part2 := (loaded.filter (fun f => !(savedNames.contains f.fieldName))).map
    (fun f => { f with visible := false, sortable := true })
  part1 ++ part2

/-- Re-serialization of a reconciled field as a saved-config field entry
(a saved config written by `handleSave` always carries `sortable`). -/
def Field.toSaved (f : Field) : SavedField :=
  { fieldName := f.fieldName, label := f.label, visible := f.visible, sortable := some f.sortable }

/- ### Event handlers (state-transition steps) -/

/-- The `_parseMergeTokens` method: re-derive the stored token list from
the current compiled query. -/
def parseMergeTokens (s : ConfigState) : ConfigState :=
  let fullQuery := s.preview
  if fullQuery = "" then { s with mergeTokens := [] }
  else { s with mergeTokens := scanTokens fullQuery }

/-- The synchronous head of `_fetchContextFieldValues`: bail out unless a
context object, a context record and at least one token are present, then
issue the `getRecordFieldValues` call with the parameters captured now. -/
def startFetch (s : ConfigState) : ConfigState :=
  if s.contextObjectApiName = "" ∨ s.contextRecordId = "" ∨ s.mergeTokens = [] then s
  else { s with pendingFetches := s.pendingFetches ++
          [{ objectApiName := s.contextObjectApiName, recordId := s.contextRecordId,
             fieldNames := s.mergeTokens }] }

/-- Successful resumption of an in-flight `getRecordFieldValues` call:
the awaited result is assigned to `_contextFieldValues` unconditionally
(the source performs no check against the current selection). -/
def completeFetchSuccess (s : ConfigState) (req : FetchReq)
    (result : List (String × JsVal)) : ConfigState :=
  { s with contextFieldValues := result, pendingFetches := s.pendingFetches.erase req }

/-- Failing resumption of an in-flight `getRecordFieldValues` call: clear
the value map and dispatch an error toast. -/
def completeFetchFailure (s : ConfigState) (req : FetchReq) (msg : String) : ConfigState :=
  { s with contextFieldValues := [],
           pendingFetches := s.pendingFetches.erase req,
           toasts := s.toasts ++ [{ title := "Context Error", message := msg, variant := "error" }] }

/-- The `handleContextRecordChange` handler. -/
def handleContextRecordChange (s : ConfigState) (recordId : String) : ConfigState :=
  let s1 := { s with contextRecordId := recordId, contextFieldValues := [] }
  if s1.contextRecordId ≠ "" ∧ s1.mergeTokens ≠ [] then startFetch s1 else s1

/-- The `handleContextObjectSelect` handler. -/
def handleContextObjectSelect (s : ConfigState) (apiName label : String) : ConfigState :=
  { s with contextObjectApiName := apiName, contextObjectLabel := label,
           contextObjectSearchTerm := label ++ " (" ++ apiName ++ ")",
           contextRecordId := "", contextFieldValues := [],
           showContextObjectDropdown := false, contextObjectResults := [] }

/-- The `handleWhereChange` handler: store the clause, re-scan tokens,
and fetch when a record is already selected and tokens exist. -/
def handleWhereChange (s : ConfigState) (v : String) : ConfigState :=
  let s1 := parseMergeTokens { s with whereClause := v }
  if s1.contextRecordId ≠ "" ∧ s1.mergeTokens ≠ [] then startFetch s1 else s1

/-- The `handleObjectNameChange` handler. -/
def handleObjectNameChange (s : ConfigState) (v : String) : ConfigState :=
  let s1 := { s with objectApiNameInput := v }
  if s.selectedObject ≠ "" ∧ v ≠ s.selectedObject then
    { s1 with selectedObject := "", fields := [] }
  else s1

/-- The `handleLoadFields` handler on a successful `getDataCloudFields`
response carrying `fieldData` (name/label pairs).  Note that it does not
re-scan merge tokens. -/
def handleLoadFieldsSuccess (s : ConfigState) (fieldData : List (String × String)) : ConfigState :=
  if s.objectApiNameInput = "" then s
  else
    let objectName := jsTrim s.objectApiNameInput
    if fieldData = [] then
      let t : Toast :=
        ⟨"No Fields Found",
         "No fields returned for \x22" ++ objectName ++ "\x22. Verify the API name is correct.",
         "warning"⟩
      { s with selectedObject := "", fields := [], toasts := s.toasts ++ [t] }
    else
      let t : Toast :=
        ⟨"Success", "Loaded " ++ toString fieldData.length ++ " fields for " ++ objectName,
         "success"⟩
      { s with selectedObject := objectName, objectApiNameInput := objectName,
               fields := fieldData.map (fun p =>
                 { fieldName := p.1, label := p.2, visible := true, sortable := true }),
               toasts := s.toasts ++ [t] }

/-- The `handleNew` handler: reset every configuration and context field
to its default. -/
def handleNew (s : ConfigState) : ConfigState :=
  { s with selectedConfigId := "", configName := "", configDescription := "",
           selectedObject := "", objectApiNameInput := "", whereClause := "",
           rowLimit := some 100, fields := [], fieldVisibilityFilter := "all",
           defaultSortField := "", defaultSortDirection := "asc",
           showRecordCount := false, showSearch := false, showRefresh := false,
           contextObjectApiName := "", contextObjectLabel := "", contextObjectSearchTerm := "",
           contextRecordId := "", contextObjectResults := [], showContextObjectDropdown := false,
           contextFieldValues := [], mergeTokens := [] }

/-- The `handleClone` handler: detach from the saved record and rename;
nothing else is touched. -/
def handleClone (s : ConfigState) : ConfigState :=
  let t : Toast :=
    ⟨"Cloned", "Config cloned — update the name and click Save to create a new copy.", "info"⟩
  { s with selectedConfigId := "", configName := s.configName ++ " - Copy",
           toasts := s.toasts ++ [t] }

/-- The `viewState` object of a saved configuration; every key may be
absent in older configs. -/
structure ViewState where
  fieldVisibilityFilter : Option String := none
  contextObjectApiName : Option String := none
  contextObjectLabel : Option String := none
  contextObjectSearchTerm : Option String := none
  contextRecordId : Option String := none
deriving Repr, DecidableEq

/-- A parsed `Config_JSON__c` payload; every key may be absent. -/
structure ParsedConfig where
  objectApiName : Option String := none
  whereClause : Option String := none
  limit : Option Nat := none
  defaultSortField : Option String := none
  defaultSortDirection : Option String := none
  showRecordCount : Option Bool := none
  showSearch : Option Bool := none
  showRefresh : Option Bool := none
  viewState : Option ViewState := none
  fields : Option (List SavedField) := none
deriving Repr

/-- The `handleConfigSelect` handler on its success path: the config with
the given id exists, its JSON parses to `parsed`, and (when an object
name is present) the `getDataCloudFields` call for it succeeds with
`fieldData`. -/
def handleConfigSelect (s : ConfigState) (configId name desc : String)
    (parsed : ParsedConfig) (fieldData : List (String × String)) : ConfigState :=
  let s1 := { s with selectedConfigId := configId, configName := name, configDescription := desc }
  let so := parsed.objectApiName.getD ""
  let s2 := { s1 with selectedObject := so, whereClause := parsed.whereClause.getD "",
                      rowLimit := some (limitOrDefault parsed.limit) }
  let s3 :=
    if so ≠ "" then
      { s2 with objectApiNameInput := so,
                fields := fieldData.map (fun p =>
                  { fieldName := p.1, label := p.2, visible := true, sortable := true }) }
    else { s2 with objectApiNameInput := "" }
  let s4 := { s3 with defaultSortField := parsed.defaultSortField.getD "",
                      defaultSortDirection := parsed.defaultSortDirection.getD "asc",
                      showRecordCount := parsed.showRecordCount.getD false,
                      showSearch := parsed.showSearch.getD false,
                      showRefresh := parsed.showRefresh.getD false }
  let s5 :=
    match parsed.viewState with
    | some vs =>
      { s4 with fieldVisibilityFilter := vs.fieldVisibilityFilter.getD "all",
                contextObjectApiName := vs.contextObjectApiName.getD "",
                contextObjectLabel := vs.contextObjectLabel.getD "",
                contextObjectSearchTerm := vs.contextObjectSearchTerm.getD "",
                contextRecordId := vs.contextRecordId.getD "" }
    | none =>
      { s4 with fieldVisibilityFilter := "all", contextObjectApiName := "",
                contextObjectLabel := "", contextObjectSearchTerm := "",
                contextRecordId := "" }
  let s6 := { s5 with contextFieldValues := [] }
  let s7 :=
    match parsed.fields with
    | some saved => { s6 with fields := reconcile saved s6.fields }
    | none => s6
  let s8 := parseMergeTokens s7
  if s8.contextRecordId ≠ "" ∧ s8.mergeTokens ≠ [] then startFetch s8 else s8

/- ### Row-key derivation of `data360Table` (`_executeAndRender`) -/

/-- Last-binding lookup in a result row (JavaScript object semantics
after spreading). -/
def lookupLastRow (row : Row) (k : String) : Option JsVal :=
  (row.reverse.find? (fun p => p.1 == k)).map (fun p => p.2)

/-- The object spread `\x7b ...row, _rowKey: "row-" + idx \x7d`. -/
def rowSetKey (row : Row) (idx : Nat) : Row :=
  row ++ [("_rowKey", JsVal.vstr ("row-" ++ toString idx))]

/-- The key-field detection and row-key synthesis block of
`_executeAndRender`: use `Id` if present among the columns, otherwise
(for a non-empty result) synthesize positional keys. -/
def renderKeys (tableColumns : List Column) (tableData : List Row) : String × List Row :=
  let hasId := tableColumns.any (fun c => c.fieldName == "Id")
  if hasId = false ∧ tableData ≠ [] then
    ("_rowKey", tableData.enum.map (fun p => rowSetKey p.2 p.1))
  else
    ("Id", tableData)

/- ### Basic string lemmas -/

@[simp]
theorem dataAppend (a b : String) : (a ++ b).data = a.data ++ b.data := by
  cases a
  cases b
  rfl

/-- Character-list form of `jsJoin`. -/
def joinList (sep : List Char) : List (List Char) → List Char
  | [] => []
  | [x] => x
  | x :: y :: xs => x ++ (sep ++ joinList sep (y :: xs))

theorem jsJoin_mk (sep : String) : ∀ parts : List (List Char),
    jsJoin sep (parts.map String.mk) = String.mk (joinList sep.data parts)
  | [] => rfl
  | [_] => rfl
  | x :: y :: xs => by
    cases sep with
    | mk sd =>
      show String.mk x ++ String.mk sd ++ jsJoin (String.mk sd) ((y :: xs).map String.mk) = _
      rw [jsJoin_mk (String.mk sd) (y :: xs)]
      show String.mk ((x ++ sd) ++ joinList sd (y :: xs)) = String.mk (x ++ (sd ++ joinList sd (y :: xs)))
      rw [List.append_assoc]

theorem splitFuel_ne_nil (pat : List Char) (fuel : Nat) (l : List Char) :
    splitFuel pat fuel l ≠ [] := by
  match fuel, l with
  | 0, l => simp [splitFuel]
  | _ + 1, [] => simp [splitFuel]
  | fuel + 1, c :: cs =>
    rw [splitFuel]
    split
    · simp
    · split <;> simp

theorem joinList_cons_head (sep : List Char) (c : Char) (h : List Char) (t : List (List Char)) :
    joinList sep ((c :: h) :: t) = c :: joinList sep (h :: t) := by
  cases t <;> rfl

theorem joinList_splitFuel (pat repl : List Char) : ∀ (fuel : Nat) (l : List Char),
    joinList repl (splitFuel pat fuel l) = replaceFuel pat repl fuel l := by
  intro fuel
  induction fuel with
  | zero => intro l; rfl
  | succ n ih =>
    intro l
    cases l with
    | nil => rfl
    | cons c cs =>
      rw [splitFuel, replaceFuel]
      by_cases h : pat ≠ [] ∧ pat.isPrefixOf (c :: cs)
      · rw [if_pos h, if_pos h]
        obtain ⟨hh, ht, hEq⟩ :=
          List.exists_cons_of_ne_nil (splitFuel_ne_nil pat n (List.drop (pat.length - 1) cs))
        rw [hEq]
        show hh :: ht |> fun r => joinList repl ([] :: r) = _
        simp only
        have : joinList repl ([] :: hh :: ht) = repl ++ joinList repl (hh :: ht) := rfl
        rw [this, ← hEq, ih]
      · rw [if_neg h, if_neg h]
        obtain ⟨hh, ht, hEq⟩ := List.exists_cons_of_ne_nil (splitFuel_ne_nil pat n cs)
        rw [hEq, joinList_cons_head, ← hEq, ih]

/-- The `split(token).join(repl)` idiom used by the source is exactly
replace-every-occurrence. -/
theorem jsReplaceAll_eq (s pat repl : String) : jsReplaceAll s pat repl = replaceAll s pat repl := by
  unfold jsReplaceAll jsSplit replaceAll
  rw [jsJoin_mk, joinList_splitFuel]

@[simp]
theorem replaceAll_empty (pat repl : String) : replaceAll "" pat repl = "" := rfl

theorem specSubstitute_empty (tokens : List String) (vals : List (String × JsVal)) :
    specSubstitute tokens vals "" = "" := by
  induction tokens with
  | nil => rfl
  | cons t ts ih =>
    show specSubstitute ts vals (replaceAll "" ("$record." ++ t) _) = ""
    rw [replaceAll_empty]
    exact ih

theorem substSourceStep_eq_spec (vals : List (String × JsVal)) (resolved fieldName : String) :
    substSourceStep vals resolved fieldName =
      replaceAll resolved ("$record." ++ fieldName) (specRender (lookupVal vals fieldName)) := by
  cases h : lookupVal vals fieldName with
  | none => simp [substSourceStep, specRender, h, jsReplaceAll_eq]
  | some v =>
    cases v with
    | vnull => simp [substSourceStep, specRender, h, jsReplaceAll_eq]
    | vnum n => simp [substSourceStep, specRender, h, jsReplaceAll_eq]
    | vbool b => cases b <;> simp [substSourceStep, specRender, h, jsReplaceAll_eq] <;> rfl
    | vstr v => simp [substSourceStep, specRender, h, jsReplaceAll_eq]

theorem substLoop_eq_spec (vals : List (String × JsVal)) :
    ∀ (tokens : List String) (q : String),
      tokens.foldl (substSourceStep vals) q = specSubstitute tokens vals q := by
  intro tokens
  induction tokens with
  | nil => intro q; rfl
  | cons t ts ih =>
    intro q
    show ts.foldl (substSourceStep vals) (substSourceStep vals q t) = _
    rw [substSourceStep_eq_spec]
    exact ih _

theorem compiled_ne_empty (j so wc : String) (n : Nat) :
    "SELECT " ++ j ++ " FROM " ++ so ++ " " ++ wc ++ " LIMIT " ++ toString n ≠ "" := by
  intro h
  have h2 := congrArg String.data h
  have he : ("" : String).data = [] := rfl
  simp only [dataAppend, List.append_assoc, he] at h2
  have h3 : "SELECT ".data = [] := (List.append_eq_nil.mp h2).1
  exact absurd h3 (by decide)

/- ### Concrete scenario states (event traces replayed on the model) -/

/-- Field data returned by `getDataCloudFields` for the demo object. -/
def demoFieldData : List (String × String) := [("Name", "Name"), ("Industry", "Industry")]

/-- The demo field list with both fields visible, in discovery order. -/
def accountFields : List Field :=
  [⟨"Name", "Name", true, true⟩, ⟨"Industry", "Industry", true, true⟩]

/-- State after typing `Account` and loading its fields. -/
def sLoaded : ConfigState :=
  handleLoadFieldsSuccess (handleObjectNameChange initialState "Account") demoFieldData

/-- State after then typing a filter clause containing a merge token. -/
def sTokens : ConfigState := handleWhereChange sLoaded "WHERE Industry = $record.Industry"

/-- State after then selecting the context object. -/
def sCtxObj : ConfigState := handleContextObjectSelect sTokens "Account" "Account"

/-- State after then picking a context record (a value fetch starts). -/
def sRecord : ConfigState := handleContextRecordChange sCtxObj "001000000000001"

/-- The value-fetch request issued while reaching `sRecord`. -/
def demoReq : FetchReq := ⟨"Account", "001000000000001", ["Industry"]⟩

/-- State after the fetch for `sRecord` completes successfully. -/
def sResolved : ConfigState := completeFetchSuccess sRecord demoReq [("Industry", JsVal.vstr "Tech")]

/-- State after the record is deselected while the fetch is in flight. -/
def sCleared : ConfigState := handleContextRecordChange sRecord ""

/-- State after the superseded fetch then completes. -/
def sStaleApplied : ConfigState :=
  completeFetchSuccess sCleared demoReq [("Industry", JsVal.vstr "Tech")]

/-- State after the fetch for `sRecord` completes with a failure. -/
def sFailed : ConfigState := completeFetchFailure sRecord demoReq "Script-thrown exception"

/-- State after typing the filter clause before any object is loaded. -/
def sWhereFirst : ConfigState := handleWhereChange initialState "WHERE Industry = $record.Industry"

/-- State after then loading the object's fields (the token list is never
re-scanned by `handleLoadFields`). -/
def sStaleTokens : ConfigState :=
  handleLoadFieldsSuccess (handleObjectNameChange sWhereFirst "Account") demoFieldData

/-- A base state with one visible field and a context record selected. -/
def baseCtx : ConfigState :=
  { initialState with
    selectedObject := "Account",
    fields := [⟨"Name", "Name", true, true⟩],
    contextObjectApiName := "Account",
    contextRecordId := "001000000000002" }

/-- Resolved state whose token value is the number `5`. -/
def sCount : ConfigState :=
  { baseCtx with
    whereClause := "WHERE Count__c = $record.Count",
    mergeTokens := ["Count"],
    contextFieldValues := [("Count", JsVal.vnum 5)] }

/-- Resolved state whose token value is the string `O'Brien`. -/
def sOBrien : ConfigState :=
  { baseCtx with
    whereClause := "WHERE Name = $record.Name",
    mergeTokens := ["Name"],
    contextFieldValues := [("Name", JsVal.vstr "O\x27Brien")] }

/-- Resolved state whose token occurs twice in the filter clause. -/
def sTwice : ConfigState :=
  { baseCtx with
    whereClause := "WHERE A = $record.X OR B = $record.X",
    mergeTokens := ["X"],
    contextFieldValues := [("X", JsVal.vnum 1)] }

/- ### C1: query compilation -/

/-- C1.  Query compilation: the compiled query string is empty exactly
when the object name is empty or no field is visible; otherwise it is
`SELECT` plus the visible fields' names in field-list order joined by
`", "`, `FROM` plus the object name, the filter clause verbatim (an empty
clause leaving two consecutive spaces), and `LIMIT` with the row limit
falling back to 100 when invalid or zero; in particular the Account
example compiles to the exact expected string. -/
theorem previewQueryString_claim :
    (∀ (fields : List Field) (so wc : String) (rl : Option Nat),
      previewQueryString fields so wc rl = "" ↔
        (so = "" ∨ fields.filter (fun f => f.visible) = []))
    ∧ (∀ (fields : List Field) (so wc : String) (rl : Option Nat),
        so ≠ "" → fields.filter (fun f => f.visible) ≠ [] →
        previewQueryString fields so wc rl =
          "SELECT " ++ jsJoin ", " ((fields.filter (fun f => f.visible)).map Field.fieldName)
            ++ " FROM " ++ so ++ " " ++ wc ++ " LIMIT " ++ toString (limitOrDefault rl))
    ∧ previewQueryString accountFields "Account" "WHERE Industry = $record.Industry" (some 100)
        = "SELECT Name, Industry FROM Account WHERE Industry = $record.Industry LIMIT 100"
    ∧ previewQueryString accountFields "Account" "" (some 100)
        = "SELECT Name, Industry FROM Account  LIMIT 100" := by
  refine ⟨?_, ?_, by decide, by decide⟩
  · intro fields so wc rl
    by_cases hc : so = "" ∨ fields.filter (fun f => f.visible) = []
    · simp only [previewQueryString, if_pos hc]
      exact iff_of_true trivial hc
    · simp only [previewQueryString, if_neg hc]
      exact iff_of_false (compiled_ne_empty _ _ _ _) hc
  · intro fields so wc rl hso hvf
    simp only [previewQueryString]
    rw [if_neg (fun h => h.elim hso hvf)]

/-- Witness for C1 at the Account example. -/
theorem previewQueryString_claim_witness :
    previewQueryString accountFields "Account" "WHERE Industry = $record.Industry" (some 100)
      = "SELECT " ++ jsJoin ", " ((accountFields.filter (fun f => f.visible)).map Field.fieldName)
        ++ " FROM " ++ "Account" ++ " " ++ "WHERE Industry = $record.Industry" ++ " LIMIT "
        ++ toString (limitOrDefault (some 100)) :=
  previewQueryString_claim.2.1 accountFields "Account" "WHERE Industry = $record.Industry"
    (some 100) (by decide) (by decide)

/- ### C2: token substitution in the Resolved state -/

/-- C2.  Token substitution: with tokens present, a context record
selected and a non-empty value map, the assembled preview is the compiled
query with every occurrence of each token's placeholder text replaced by
`NULL` for null/absent values, the bare textual form for numbers and
booleans, and the single-quoted unescaped text otherwise; in particular
the number 5 is spliced bare, `O'Brien` is spliced as `'O'Brien'`, and a
token occurring twice is replaced at both occurrences. -/
theorem resolvedPreview_substitution_claim :
    (∀ s : ConfigState, s.mergeTokens ≠ [] → s.contextRecordId ≠ "" →
      s.contextFieldValues ≠ [] →
      resolvedPreviewQueryString s = specSubstitute s.mergeTokens s.contextFieldValues s.preview)
    ∧ resolvedPreviewQueryString sCount = "SELECT Name FROM Account WHERE Count__c = 5 LIMIT 100"
    ∧ resolvedPreviewQueryString sOBrien
        = "SELECT Name FROM Account WHERE Name = \x27O\x27Brien\x27 LIMIT 100"
    ∧ resolvedPreviewQueryString sTwice
        = "SELECT Name FROM Account WHERE A = 1 OR B = 1 LIMIT 100" := by
  refine ⟨?_, by decide, by decide, by decide⟩
  intro s h1 h2 h3
  by_cases hraw : s.preview = ""
  · simp only [resolvedPreviewQueryString, if_pos hraw, hraw]
    exact (specSubstitute_empty _ _).symm
  · simp only [resolvedPreviewQueryString]
    rw [if_neg hraw, if_neg h1, if_neg h2, if_neg h3]
    exact substLoop_eq_spec _ _ _

/-- Witness for C2 at the resolved demo trace state. -/
theorem resolvedPreview_substitution_claim_witness :
    resolvedPreviewQueryString sResolved
      = specSubstitute sResolved.mergeTokens sResolved.contextFieldValues sResolved.preview :=
  resolvedPreview_substitution_claim.1 sResolved (by decide) (by decide) (by decide)

/- ### C3: preview gating by resolution state -/

theorem resolutionState_noTokens_iff (s : ConfigState) :
    resolutionState s = ResolutionState.NoTokens ↔ s.mergeTokens = [] := by
  unfold resolutionState
  by_cases h1 : s.mergeTokens = [] <;> by_cases h2 : s.contextRecordId = "" <;>
    by_cases h3 : s.contextFieldValues = [] <;> simp [h1, h2, h3]

theorem resolutionState_awaitingRecord_iff (s : ConfigState) :
    resolutionState s = ResolutionState.AwaitingRecord ↔
      s.mergeTokens ≠ [] ∧ s.contextRecordId = "" := by
  unfold resolutionState
  by_cases h1 : s.mergeTokens = [] <;> by_cases h2 : s.contextRecordId = "" <;>
    by_cases h3 : s.contextFieldValues = [] <;> simp [h1, h2, h3]

theorem resolutionState_awaitingValues_iff (s : ConfigState) :
    resolutionState s = ResolutionState.AwaitingValues ↔
      s.mergeTokens ≠ [] ∧ s.contextRecordId ≠ "" ∧ s.contextFieldValues = [] := by
  unfold resolutionState
  by_cases h1 : s.mergeTokens = [] <;> by_cases h2 : s.contextRecordId = "" <;>
    by_cases h3 : s.contextFieldValues = [] <;> simp [h1, h2, h3]

/-- C3.  Preview gating: the assembled preview is the compiled query
unchanged in the `NoTokens` state, and the empty string in the
`AwaitingRecord` and `AwaitingValues` states. -/
theorem preview_gating_claim :
    (∀ s : ConfigState, resolutionState s = ResolutionState.NoTokens →
      resolvedPreviewQueryString s = s.preview)
    ∧ (∀ s : ConfigState, resolutionState s = ResolutionState.AwaitingRecord →
        resolvedPreviewQueryString s = "")
    ∧ (∀ s : ConfigState, resolutionState s = ResolutionState.AwaitingValues →
        resolvedPreviewQueryString s = "") := by
  refine ⟨?_, ?_, ?_⟩
  · intro s h
    have ht := (resolutionState_noTokens_iff s).mp h
    simp only [resolvedPreviewQueryString]
    by_cases hraw : s.preview = ""
    · rw [if_pos hraw, hraw]
    · rw [if_neg hraw, if_pos ht]
  · intro s h
    obtain ⟨ht, hr⟩ := (resolutionState_awaitingRecord_iff s).mp h
    simp only [resolvedPreviewQueryString]
    by_cases hraw : s.preview = ""
    · rw [if_pos hraw]
    · rw [if_neg hraw, if_neg ht, if_pos hr]
  · intro s h
    obtain ⟨ht, hr, hv⟩ := (resolutionState_awaitingValues_iff s).mp h
    simp only [resolvedPreviewQueryString]
    by_cases hraw : s.preview = ""
    · rw [if_pos hraw]
    · rw [if_neg hraw, if_neg ht, if_neg hr, if_pos hv]

/-- Witness for C3 at the three trace states reaching the three gated
resolution states. -/
theorem preview_gating_claim_witness :
    resolvedPreviewQueryString sLoaded = sLoaded.preview
    ∧ resolvedPreviewQueryString sTokens = ""
    ∧ resolvedPreviewQueryString sRecord = "" :=
  ⟨preview_gating_claim.1 sLoaded (by decide),
   preview_gating_claim.2.1 sTokens (by decide),
   preview_gating_claim.2.2 sRecord (by decide)⟩

/- ### C4/C5: reconciliation lemmas -/

theorem contains_iff_mem {α : Type} [BEq α] [LawfulBEq α] (l : List α) (a : α) :
    l.contains a = true ↔ a ∈ l := by
  simp [List.contains, List.elem_iff]

theorem mapGet_name (loaded : List Field) (n : String) (f : Field)
    (h : mapGet loaded n = some f) : f.fieldName = n := by
  unfold mapGet at h
  have hp := List.find?_some h
  simpa using hp

theorem mapGet_mem (loaded : List Field) (n : String) (f : Field)
    (h : mapGet loaded n = some f) : f ∈ loaded := by
  unfold mapGet at h
  exact List.mem_reverse.mp (List.mem_of_find?_eq_some h)

theorem mapGet_isSome_iff (loaded : List Field) (n : String) :
    (mapGet loaded n).isSome ↔ ∃ f ∈ loaded, f.fieldName = n := by
  unfold mapGet
  rw [List.find?_isSome]
  constructor
  · rintro ⟨f, hf, hp⟩
    exact ⟨f, List.mem_reverse.mp hf, eq_of_beq hp⟩
  · rintro ⟨f, hf, hp⟩
    exact ⟨f, List.mem_reverse.mpr hf, by simp [hp]⟩

theorem mapGet_isSome_of_any (loaded : List Field) (n : String)
    (h : loaded.any (fun f => f.fieldName == n) = true) : (mapGet loaded n).isSome := by
  obtain ⟨f, hf, hp⟩ := List.any_eq_true.mp h
  exact (mapGet_isSome_iff loaded n).mpr ⟨f, hf, eq_of_beq hp⟩

theorem any_of_mapGet_eq_some (loaded : List Field) (n : String) (f : Field)
    (h : mapGet loaded n = some f) : loaded.any (fun g => g.fieldName == n) = true :=
  List.any_eq_true.mpr ⟨f, mapGet_mem loaded n f h, by simp [mapGet_name loaded n f h]⟩

theorem sortable_default_eq (o : Option Bool) : (o != some false) = o.getD true := by
  cases o with
  | none => rfl
  | some b => cases b <;> rfl

theorem reconcile_part1_eq (loaded : List Field) : ∀ saved : List SavedField,
    saved.filterMap (reconEntry loaded) =
      (saved.filter (fun cf => loaded.any (fun f => f.fieldName == cf.fieldName))).map
        (fun cf => { fieldName := cf.fieldName, label := cf.label, visible := cf.visible,
                     sortable := cf.sortable.getD true }) := by
  intro saved
  induction saved with
  | nil => rfl
  | cons cf rest ih =>
    rw [List.filterMap_cons, List.filter_cons]
    cases h : mapGet loaded cf.fieldName with
    | none =>
      have hany : loaded.any (fun f => f.fieldName == cf.fieldName) = false := by
        rw [← Bool.not_eq_true]
        intro hc
        have hs := mapGet_isSome_of_any loaded cf.fieldName hc
        rw [h] at hs
        exact absurd hs (by decide)
      have hre : reconEntry loaded cf = none := by
        unfold reconEntry
        rw [h]
        rfl
      rw [hre]
      simp only [hany, Bool.false_eq_true, if_false]
      exact ih
    | some f =>
      have hname := mapGet_name loaded cf.fieldName f h
      have hany := any_of_mapGet_eq_some loaded cf.fieldName f h
      have hre : reconEntry loaded cf =
          some { f with visible := cf.visible, label := cf.label,
                        sortable := cf.sortable != some false } := by
        unfold reconEntry
        rw [h]
        rfl
      rw [hre]
      simp only [hany, if_true, List.map_cons]
      rw [ih]
      congr 1
      cases f with
      | mk fn fl fv fs =>
        show Field.mk fn cf.label cf.visible (cf.sortable != some false)
          = Field.mk cf.fieldName cf.label cf.visible (cf.sortable.getD true)
        have hname2 : fn = cf.fieldName := hname
        rw [hname2, sortable_default_eq]

theorem seen_contains_iff (saved : List SavedField) (loaded : List Field) (n : String) :
    (saved.filterMap (fun cf => (mapGet loaded cf.fieldName).map (fun _ => cf.fieldName))).contains n = true
      ↔ ∃ cf ∈ saved, cf.fieldName = n ∧ (mapGet loaded n).isSome := by
  rw [contains_iff_mem, List.mem_filterMap]
  constructor
  · rintro ⟨cf, hcf, hsome⟩
    cases h : mapGet loaded cf.fieldName with
    | none => rw [h] at hsome; exact absurd hsome (by simp)
    | some f =>
      rw [h] at hsome
      have : cf.fieldName = n := by
        have := Option.some.inj hsome
        simpa using this
      exact ⟨cf, hcf, this, by rw [← this, h]; rfl⟩
  · rintro ⟨cf, hcf, hn, hsome⟩
    refine ⟨cf, hcf, ?_⟩
    rw [hn]
    cases h : mapGet loaded n with
    | none => rw [h] at hsome; exact absurd hsome (by simp)
    | some f => rfl

theorem reconcile_part2_eq (saved : List SavedField) (loaded : List Field) :
    loaded.filter (fun f =>
        !((saved.filterMap (fun cf => (mapGet loaded cf.fieldName).map
            (fun _ => cf.fieldName))).contains f.fieldName))
      = loaded.filter (fun f => !((saved.map SavedField.fieldName).contains f.fieldName)) := by
  apply List.filter_congr
  intro f hf
  have hmem : (mapGet loaded f.fieldName).isSome :=
    (mapGet_isSome_iff loaded f.fieldName).mpr ⟨f, hf, rfl⟩
  congr 1
  rw [Bool.eq_iff_iff, seen_contains_iff, contains_iff_mem]
  constructor
  · rintro ⟨cf, hcf, hn, _⟩
    rw [← hn]
    exact List.mem_map.mpr ⟨cf, hcf, rfl⟩
  · intro h
    obtain ⟨cf, hcf, hn⟩ := List.mem_map.mp h
    exact ⟨cf, hcf, hn, hmem⟩

/-- The loop in `handleConfigSelect` computes exactly the claim's
description of reconciliation. -/
theorem reconcile_eq_spec (saved : List SavedField) (loaded : List Field) :
    reconcile saved loaded = reconcileSpec saved loaded := by
  simp only [reconcile, reconcileSpec]
  rw [reconcile_part1_eq, reconcile_part2_eq]

theorem reconcileSpec_names (saved : List SavedField) (loaded : List Field) (n : String) :
    n ∈ (reconcileSpec saved loaded).map Field.fieldName ↔ n ∈ loaded.map Field.fieldName := by
  simp only [reconcileSpec, List.map_append, List.mem_append, List.map_map, List.mem_map,
    Function.comp, List.mem_filter]
  constructor
  · rintro (⟨cf, ⟨hcfs, hany⟩, hn⟩ | ⟨f, ⟨hfl, hnc⟩, hn⟩)
    · obtain ⟨f, hf, hp⟩ := List.any_eq_true.mp hany
      exact ⟨f, hf, by rw [eq_of_beq hp]; exact hn⟩
    · exact ⟨f, hfl, hn⟩
  · rintro ⟨f, hf, hn⟩
    by_cases hs : ∃ cf ∈ saved, cf.fieldName = n
    · obtain ⟨cf, hcf, hcfn⟩ := hs
      left
      refine ⟨cf, ⟨hcf, ?_⟩, hcfn⟩
      exact List.any_eq_true.mpr ⟨f, hf, by simp [hn, hcfn]⟩
    · right
      refine ⟨f, ⟨hf, ?_⟩, hn⟩
      rw [Bool.not_eq_true', ← Bool.not_eq_true]
      intro hc
      obtain ⟨cf, hcf, hcfn⟩ := List.mem_map.mp ((contains_iff_mem _ _).mp hc)
      exact hs ⟨cf, hcf, by rw [hcfn, hn]⟩

/-- Names in a reconciled field list are exactly the discovered names. -/
theorem reconcile_names (saved : List SavedField) (loaded : List Field) (n : String) :
    n ∈ (reconcile saved loaded).map Field.fieldName ↔ n ∈ loaded.map Field.fieldName := by
  rw [reconcile_eq_spec]
  exact reconcileSpec_names saved loaded n

/-- C4.  Reconciliation produces a field set whose names are exactly the
discovered names (nothing dropped, nothing invented), ordered as the
claim describes: fields present in both lists in saved order with the
saved visible/label/sortable (missing sortable defaulting to true), then
the remaining discovered fields in discovery order, hidden and sortable. -/
theorem reconcile_claim :
    (∀ (saved : List SavedField) (loaded : List Field) (n : String),
      n ∈ (reconcile saved loaded).map Field.fieldName ↔ n ∈ loaded.map Field.fieldName)
    ∧ ∀ (saved : List SavedField) (loaded : List Field),
        reconcile saved loaded = reconcileSpec saved loaded :=
  ⟨reconcile_names, reconcile_eq_spec⟩

/-- Demo saved field list for the reconciliation witnesses: one field
from an older config (no `sortable`), one deleted field. -/
def demoSaved : List SavedField :=
  [⟨"Industry", "Industry (custom)", true, none⟩, ⟨"Old__c", "Old", true, some true⟩]

/-- Witness for C4 at the demo saved/discovered field lists. -/
theorem reconcile_claim_witness :
    ("Name" ∈ (reconcile demoSaved accountFields).map Field.fieldName
        ↔ "Name" ∈ accountFields.map Field.fieldName)
    ∧ reconcile demoSaved accountFields = reconcileSpec demoSaved accountFields :=
  ⟨reconcile_claim.1 demoSaved accountFields "Name", reconcile_claim.2 demoSaved accountFields⟩

theorem some_bne_some_false (b : Bool) : (some b != some false) = b := by
  cases b <;> rfl

theorem reconEntry_toSaved (loaded : List Field) (f : Field)
    (h : (mapGet loaded f.fieldName).isSome) : reconEntry loaded (Field.toSaved f) = some f := by
  obtain ⟨g, hg⟩ := Option.isSome_iff_exists.mp h
  have hgn : g.fieldName = f.fieldName := mapGet_name loaded f.fieldName g hg
  unfold reconEntry
  have hfn : (Field.toSaved f).fieldName = f.fieldName := rfl
  rw [hfn, hg, Option.map_some']
  cases g with
  | mk gn gl gv gs =>
    cases f with
    | mk fn fl fv fs =>
      have hgn2 : gn = fn := hgn
      show some (Field.mk gn fl fv (some fs != some false)) = some (Field.mk fn fl fv fs)
      rw [hgn2, some_bne_some_false]

theorem reconcile_idem_phase1 (loaded : List Field) : ∀ r : List Field,
    (∀ f ∈ r, (mapGet loaded f.fieldName).isSome) →
    (r.map Field.toSaved).filterMap (reconEntry loaded) = r := by
  intro r
  induction r with
  | nil => intro _; rfl
  | cons f rest ih =>
    intro hall
    rw [List.map_cons, List.filterMap_cons,
      reconEntry_toSaved loaded f (hall f (by simp))]
    simp only
    rw [ih (fun g hg => hall g (by simp [hg]))]

/-- C5.  Reconciliation is idempotent: feeding a reconciled field list
(re-serialized as saved fields) back through reconciliation against the
same discovered list returns the identical field list. -/
theorem reconcile_idempotent_claim (saved : List SavedField) (loaded : List Field) :
    reconcile ((reconcile saved loaded).map Field.toSaved) loaded = reconcile saved loaded := by
  set r := reconcile saved loaded with hr
  have hnames : ∀ f ∈ r, (mapGet loaded f.fieldName).isSome := by
    intro f hf
    have h1 : f.fieldName ∈ r.map Field.fieldName := List.mem_map.mpr ⟨f, hf, rfl⟩
    have h2 : f.fieldName ∈ loaded.map Field.fieldName :=
      (reconcile_names saved loaded f.fieldName).mp h1
    obtain ⟨g, hg, hgn⟩ := List.mem_map.mp h2
    exact (mapGet_isSome_iff loaded f.fieldName).mpr ⟨g, hg, hgn⟩
  have hseen : ∀ f ∈ loaded,
      ((r.map Field.toSaved).filterMap
        (fun cf => (mapGet loaded cf.fieldName).map (fun _ => cf.fieldName))).contains
          f.fieldName = true := by
    intro f hf
    have h1 : f.fieldName ∈ loaded.map Field.fieldName := List.mem_map.mpr ⟨f, hf, rfl⟩
    have h2 : f.fieldName ∈ r.map Field.fieldName :=
      (reconcile_names saved loaded f.fieldName).mpr h1
    obtain ⟨fr, hfr, hfrn⟩ := List.mem_map.mp h2
    rw [contains_iff_mem, List.mem_filterMap]
    refine ⟨Field.toSaved fr, List.mem_map.mpr ⟨fr, hfr, rfl⟩, ?_⟩
    have hfn : (Field.toSaved fr).fieldName = f.fieldName := hfrn
    rw [hfn]
    have hsome : (mapGet loaded f.fieldName).isSome :=
      (mapGet_isSome_iff _ _).mpr ⟨f, hf, rfl⟩
    obtain ⟨g, hg⟩ := Option.isSome_iff_exists.mp hsome
    rw [hg]
    rfl
  simp only [reconcile]
  rw [reconcile_idem_phase1 loaded r hnames]
  have hfilter : loaded.filter (fun f =>
      !((r.map Field.toSaved).filterMap
        (fun cf => (mapGet loaded cf.fieldName).map (fun _ => cf.fieldName))).contains
          f.fieldName) = [] := by
    rw [List.filter_eq_nil_iff]
    intro f hf
    rw [hseen f hf]
    decide
  rw [hfilter]
  simp

/-- Witness for C5 at the demo saved/discovered field lists. -/
theorem reconcile_idempotent_claim_witness :
    reconcile ((reconcile demoSaved accountFields).map Field.toSaved) accountFields
      = reconcile demoSaved accountFields :=
  reconcile_idempotent_claim demoSaved accountFields

/- ### C10: synthesized row keys -/

/-- C10.  Synthesized row-key mode is entered iff the result has no `Id`
column and at least one row: the key field becomes `_rowKey` and row `i`
receives key `row-i` with its other fields unchanged; in every other case
(including an Id-less empty result) the key field stays `Id` and the rows
pass through unmodified. -/
theorem renderKeys_claim :
    (∀ (cols : List Column) (data : List Row),
      (renderKeys cols data).1 = "_rowKey" ↔
        (cols.any (fun c => c.fieldName == "Id") = false ∧ data ≠ []))
    ∧ (∀ (cols : List Column) (data : List Row),
        cols.any (fun c => c.fieldName == "Id") = false → data ≠ [] →
        (renderKeys cols data).2 = data.enum.map (fun p => rowSetKey p.2 p.1))
    ∧ (∀ (cols : List Column) (data : List Row),
        (cols.any (fun c => c.fieldName == "Id") = true ∨ data = []) →
        renderKeys cols data = ("Id", data))
    ∧ (∀ (row : Row) (idx : Nat) (k : String), k ≠ "_rowKey" →
        lookupLastRow (rowSetKey row idx) k = lookupLastRow row k)
    ∧ (∀ (row : Row) (idx : Nat),
        lookupLastRow (rowSetKey row idx) "_rowKey"
          = some (JsVal.vstr ("row-" ++ toString idx))) := by
  refine ⟨?_, ?_, ?_, ?_, ?_⟩
  · intro cols data
    unfold renderKeys
    by_cases hc : cols.any (fun c => c.fieldName == "Id") = false ∧ data ≠ []
    · rw [if_pos hc]
      exact iff_of_true rfl hc
    · rw [if_neg hc]
      have hne : ("Id" : String) ≠ "_rowKey" := by decide
      exact iff_of_false hne hc
  · intro cols data h1 h2
    unfold renderKeys
    rw [if_pos ⟨h1, h2⟩]
  · intro cols data h
    unfold renderKeys
    rw [if_neg]
    rintro ⟨ha, hd⟩
    cases h with
    | inl h1 => rw [h1] at ha; exact absurd ha (by decide)
    | inr h2 => exact hd h2
  · intro row idx k hk
    have hbeq : (("_rowKey" : String) == k) = false := by
      rw [beq_eq_false_iff_ne]
      exact fun h => hk h.symm
    simp [lookupLastRow, rowSetKey, List.find?, hbeq]
  · intro row idx
    simp [lookupLastRow, rowSetKey, List.find?]

/-- Demo columns lacking an `Id` column. -/
def demoCols : List Column := [⟨"Name", "Name"⟩]

/-- Demo three-row Id-less result set. -/
def demoRows : List Row :=
  [[("Name", JsVal.vstr "Acme")], [("Name", JsVal.vstr "Beta")], [("Name", JsVal.vstr "Cyl")]]

/-- Witness for C10 at the Id-less three-row result. -/
theorem renderKeys_claim_witness :
    (renderKeys demoCols demoRows).2 = demoRows.enum.map (fun p => rowSetKey p.2 p.1) :=
  renderKeys_claim.2.1 demoCols demoRows (by decide) (by decide)

/- ### C6: stale value-fetch completion is applied, not discarded -/

/-- C6 (code behaviour at the failing interleaving).  A value fetch is
started for record `001000000000001`; the record selection is then
cleared while the fetch is in flight (the request stays pending and the
map is empty); when the superseded fetch completes, its result populates
the value map even though the context record id is now empty — the code
performs no completion-time identity check. -/
theorem staleFetch_applied_claim :
    demoReq ∈ sCleared.pendingFetches
    ∧ sCleared.contextRecordId = ""
    ∧ sCleared.contextFieldValues = []
    ∧ sStaleApplied.contextRecordId = ""
    ∧ sStaleApplied.contextFieldValues = [("Industry", JsVal.vstr "Tech")] := by
  decide

/- ### C7: a reachable state hands out a preview with a literal token -/

/-- C7 (code behaviour at the failing event sequence).  Typing the filter
clause while no object is loaded leaves the token list empty (the scan
sees an empty compiled query); loading the object's fields afterwards
never re-scans, so the assembled preview is non-empty, still contains the
literal text `$record.Industry`, and no value for it was resolved. -/
theorem stalePlaceholder_claim :
    sStaleTokens.mergeTokens = []
    ∧ resolvedPreviewQueryString sStaleTokens ≠ ""
    ∧ containsSubstr (resolvedPreviewQueryString sStaleTokens) "$record.Industry" = true
    ∧ sStaleTokens.contextFieldValues = [] := by
  decide

/- ### C8: fetch-failure handling -/

/-- C8 (counterexample).  After the context-value fetch fails on the demo
trace, the value map is cleared and the token set kept, but the derived
resolution state is `AwaitingValues` — not `Error` as the claim states —
and the status text reads as if a fetch were still under way. -/
theorem fetchFailure_state_counterexample :
    sFailed.contextFieldValues = []
    ∧ sFailed.mergeTokens = ["Industry"]
    ∧ sFailed.contextRecordId ≠ ""
    ∧ resolutionState sFailed = ResolutionState.AwaitingValues
    ∧ resolutionState sFailed ≠ ResolutionState.Error
    ∧ mergeTokenStatusText sFailed = "Fetching 1 field value(s)..." := by
  decide

/-- C8 (amended).  A failing context-value fetch clears the resolved
value map, leaves the token set intact, surfaces the failure as an error
toast, starts no new fetch, and leaves the derived resolution state at
`AwaitingValues` (there is no error flag among the state the derivation
reads, so it cannot become `Error`). -/
theorem fetchFailure_handling_claim (s : ConfigState) (req : FetchReq) (msg : String) :
    (completeFetchFailure s req msg).contextFieldValues = []
    ∧ (completeFetchFailure s req msg).mergeTokens = s.mergeTokens
    ∧ (completeFetchFailure s req msg).toasts = s.toasts ++ [⟨"Context Error", msg, "error"⟩]
    ∧ (completeFetchFailure s req msg).pendingFetches = s.pendingFetches.erase req
    ∧ (s.mergeTokens ≠ [] → s.contextRecordId ≠ "" →
        resolutionState (completeFetchFailure s req msg) = ResolutionState.AwaitingValues) := by
  refine ⟨rfl, rfl, rfl, rfl, ?_⟩
  intro h1 h2
  simp [resolutionState, completeFetchFailure, h1, h2]

/-- Witness for the amended C8 at the failing-fetch demo trace. -/
theorem fetchFailure_handling_claim_witness :
    resolutionState (completeFetchFailure sRecord demoReq "boom")
      = ResolutionState.AwaitingValues :=
  (fetchFailure_handling_claim sRecord demoReq "boom").2.2.2.2 (by decide) (by decide)

/- ### C9: session resets and the context selection -/

/-- C9 (counterexample).  Cloning from the resolved demo state leaves the
whole context-record selection in place: the record id, object name and
fetched value map are unchanged and non-empty afterwards, contradicting
the claim that Clone discards the selection. -/
theorem sessionReset_clone_counterexample :
    (handleClone sResolved).contextRecordId = "001000000000001"
    ∧ (handleClone sResolved).contextRecordId ≠ ""
    ∧ (handleClone sResolved).contextObjectApiName = "Account"
    ∧ (handleClone sResolved).contextFieldValues = [("Industry", JsVal.vstr "Tech")] := by
  decide

@[simp]
theorem parseMergeTokens_contextFieldValues (s : ConfigState) :
    (parseMergeTokens s).contextFieldValues = s.contextFieldValues := by
  simp only [parseMergeTokens]
  split <;> rfl

@[simp]
theorem parseMergeTokens_contextRecordId (s : ConfigState) :
    (parseMergeTokens s).contextRecordId = s.contextRecordId := by
  simp only [parseMergeTokens]
  split <;> rfl

@[simp]
theorem parseMergeTokens_contextObjectApiName (s : ConfigState) :
    (parseMergeTokens s).contextObjectApiName = s.contextObjectApiName := by
  simp only [parseMergeTokens]
  split <;> rfl

@[simp]
theorem startFetch_contextFieldValues (s : ConfigState) :
    (startFetch s).contextFieldValues = s.contextFieldValues := by
  simp only [startFetch]
  split <;> rfl

@[simp]
theorem startFetch_contextRecordId (s : ConfigState) :
    (startFetch s).contextRecordId = s.contextRecordId := by
  simp only [startFetch]
  split <;> rfl

@[simp]
theorem startFetch_contextObjectApiName (s : ConfigState) :
    (startFetch s).contextObjectApiName = s.contextObjectApiName := by
  simp only [startFetch]
  split <;> rfl

theorem handleConfigSelect_ctx (s : ConfigState) (configId name desc : String)
    (parsed : ParsedConfig) (fieldData : List (String × String)) :
    (handleConfigSelect s configId name desc parsed fieldData).contextFieldValues = []
    ∧ (handleConfigSelect s configId name desc parsed fieldData).contextRecordId
        = (match parsed.viewState with
           | some vs => vs.contextRecordId.getD ""
           | none => "")
    ∧ (handleConfigSelect s configId name desc parsed fieldData).contextObjectApiName
        = (match parsed.viewState with
           | some vs => vs.contextObjectApiName.getD ""
           | none => "") := by
  unfold handleConfigSelect
  cases hvs : parsed.viewState <;> cases hpf : parsed.fields <;>
    by_cases hso : parsed.objectApiName.getD "" = "" <;>
      simp [hso, apply_ite ConfigState.contextFieldValues,
        apply_ite ConfigState.contextRecordId, apply_ite ConfigState.contextObjectApiName]

/-- C9 (amended).  New clears the context object name, label, search
term, record id and value map; Clone leaves the entire context selection
unchanged (it only detaches the saved-record id and renames); Load always
clears the fetched value map but restores the context object and record
id from the loaded config's saved view state, defaulting to empty only
when that state is absent. -/
theorem sessionReset_behavior_claim :
    (∀ s : ConfigState,
      (handleNew s).contextObjectApiName = ""
      ∧ (handleNew s).contextObjectLabel = ""
      ∧ (handleNew s).contextObjectSearchTerm = ""
      ∧ (handleNew s).contextRecordId = ""
      ∧ (handleNew s).contextFieldValues = [])
    ∧ (∀ s : ConfigState,
      (handleClone s).contextObjectApiName = s.contextObjectApiName
      ∧ (handleClone s).contextObjectLabel = s.contextObjectLabel
      ∧ (handleClone s).contextObjectSearchTerm = s.contextObjectSearchTerm
      ∧ (handleClone s).contextRecordId = s.contextRecordId
      ∧ (handleClone s).contextFieldValues = s.contextFieldValues)
    ∧ (∀ (s : ConfigState) (configId name desc : String) (parsed : ParsedConfig)
          (fieldData : List (String × String)),
        (handleConfigSelect s configId name desc parsed fieldData).contextFieldValues = []
        ∧ (handleConfigSelect s configId name desc parsed fieldData).contextRecordId
            = (match parsed.viewState with
               | some vs => vs.contextRecordId.getD ""
               | none => "")) := by
  refine ⟨?_, ?_, ?_⟩
  · intro s
    exact ⟨rfl, rfl, rfl, rfl, rfl⟩
  · intro s
    exact ⟨rfl, rfl, rfl, rfl, rfl⟩
  · intro s configId name desc parsed fieldData
    obtain ⟨h1, h2, _⟩ := handleConfigSelect_ctx s configId name desc parsed fieldData
    exact ⟨h1, h2⟩

/-- Witness for the amended C9 at the resolved demo state. -/
theorem sessionReset_behavior_claim_witness :
    (handleNew sResolved).contextRecordId = ""
    ∧ (handleClone sResolved).contextFieldValues = sResolved.contextFieldValues :=
  ⟨(sessionReset_behavior_claim.1 sResolved).2.2.2.1,
   (sessionReset_behavior_claim.2.1 sResolved).2.2.2.2⟩

end Data360
